import Mathlib

/-!
Verification of the framequery SQL engine core (parser helpers, tokenizer
and the base executor) against its natural-language specification.

The development shallowly embeds the two source files
`src/framequery/parser/_parser.py` and `src/framequery/_base_executor.py`.
Python exceptions are modelled with an explicit error type and `Except`;
the monadic combinator kernel (`framequery.util._monadic`), the pandas
utility helpers (`framequery._pandas_util`), the old-parser AST classes
(`ColumnReference`, `GeneralSetFunction`), `get_selected_column_name` and
the id generator are not part of the sources and are modelled from the
specification where a claim needs them; each such definition carries a
`Modelled from the spec:` doc comment.
-/

/-- Python exception kinds raised by the embedded code.  `valueError`
carries the message built at the raise site; `keyError` carries the
missing key; `assertionError` models a failing `assert` statement;
`typeError` models applying an operation to a value of the wrong dynamic
type; `indexError` models an out-of-range subscript;
`notImplementedError` models an explicit `raise NotImplementedError`. -/
inductive Err where
  | valueError (msg : String)
  | keyError (key : String)
  | assertionError
  | typeError
  | indexError
  | notImplementedError
deriving DecidableEq, Repr

/-- Whether an error is a Python `ValueError`. -/
def Err.is_value_error : Err → Bool
  | .valueError _ => true
  | _ => false

/-! ## The parser AST (`framequery.parser.ast`)

Only the node kinds touched by the claims are embedded: names, integer
literals, binary operations (`a.BinaryOp(op, left, right)`), set-function
calls (`a.CallSetFunction(func, quantifier, args)`), `ORDER BY` items
(`a.OrderBy(value, order)`) and joins
(`a.Join(how, left, right, on)`). -/

inductive Ast where
  | name (value : String)
  | integer (value : String)
  | binaryOp (op : String) (left : Ast) (right : Ast)
  | callSetFunction (func : String) (quantifier : Option String) (args : List Ast)
  | orderBy (value : Ast) (order : String)
  | join (how : String) (left : Option Ast) (right : Ast) (on_ : Ast)

/-- A value inside a combinator match list.  The Python kernel carries
heterogeneous lists mixing AST nodes, raw token strings, keyword-tagged
fields and nested lists; this sum type reflects that dynamic typing. -/
inductive MatchValue where
  | ast (a : Ast)
  | tok (s : String)
  | field (name : String) (v : MatchValue)
  | list (l : List MatchValue)

/-! ## `build_binary_tree` (parser `_parser.py`, lines 91-103) -/

/-- Inner worker `_impl` of `build_binary_tree`: asserts the list has odd
length, returns the sole element of a singleton, and otherwise builds
`a.BinaryOp(seq[1], seq[0], _impl(seq[2:]))`.  Building a `BinaryOp` whose
operator slot is not a token string or whose operand slots are not AST
nodes is modelled as a `typeError`; the grammar only ever supplies
alternating value/operator lists, so that branch is unreachable from the
parser. -/
def bbt_impl (seq : List MatchValue) : Except Err MatchValue :=
  if seq.length % 2 ≠ 1 then .error .assertionError
  else
    match seq with
    | [x] => .ok x
    | x :: y :: rest =>
      match bbt_impl rest with
      | .error e => .error e
      | .ok sub =>
        match y, x, sub with
        | .tok op, .ast a, .ast c => .ok (.ast (.binaryOp op a c))
        | _, _, _ => .error .typeError
    | [] => .error .assertionError

/-- `build_binary_tree(seq)`: asserts `len(seq) == 1` and returns
`[_impl(seq[0])]`.  The sole element must be a (nested) list, as produced
by `m.list_of`; calling `len` on a non-list is a `typeError`. -/
def build_binary_tree (seq : List MatchValue) : Except Err (List MatchValue) :=
  match seq with
  | [.list inner] =>
    match bbt_impl inner with
    | .error e => .error e
    | .ok v => .ok [v]
  | [_] => .error .typeError
  | _ => .error .assertionError

/-- The right-nested tree described by the claim: for
`[v0, op1, v1, op2, v2, ...]` the tree
`BinaryOp(op1, v0, BinaryOp(op2, v1, ...))`.  This definition follows the
claim's words and is compared against the source's `build_binary_tree`. -/
def spec_right_nested (v : Ast) : List (String × Ast) → Ast
  | [] => v
  | (op, w) :: rest => .binaryOp op v (spec_right_nested w rest)

/-- The odd-length alternating match list `[v0, op1, v1, op2, v2, ...]`
presented to `build_binary_tree` by `m.list_of`. -/
def alternating_items (v : Ast) : List (String × Ast) → List MatchValue
  | [] => [.ast v]
  | (op, w) :: rest => .ast v :: .tok op :: alternating_items w rest

/-! ## `build_joins` (parser `_parser.py`, lines 106-119) -/

/-- One step of the `build_joins` loop: `current = join.update(left=current)`
when `join` is an `a.Join` node, `NotImplementedError` otherwise.  The
`update` stores `current` in the `left` field, which holds an AST node; a
non-AST accumulator is modelled as a `typeError` (unreachable from the
grammar). -/
def join_update (cur j : MatchValue) : Except Err MatchValue :=
  match j, cur with
  | .ast (.join how _ right on_), .ast c =>
    .ok (MatchValue.ast (.join how (some c) right on_))
  | .ast (.join _ _ _ _), _ => .error Err.typeError
  | _, _ => .error Err.notImplementedError

/-- `build_joins(seq)`: `current, joins = seq[0], seq[1:]` (an empty `seq`
is an `IndexError`); with no joins it returns `[current]`; otherwise the
join list is folded over the base element with `join_update`. -/
def build_joins (seq : List MatchValue) : Except Err (List MatchValue) :=
  match seq with
  | [] => .error .indexError
  | current :: joins =>
    match joins.foldlM join_update current with
    | .error e => .error e
    | .ok result => .ok [result]

/-- The left-nested join chain described by the claim: each subsequent
join's `left` field is the chain built so far.  The joins are given as
`(how, right, on)` triples; this definition follows the claim's words and
is compared against the source's `build_joins`. -/
def spec_join_chain (base : Ast) : List (String × Ast × Ast) → Ast
  | [] => base
  | (how, right, on_) :: rest => spec_join_chain (.join how (some base) right on_) rest

/-! ## Token-level combinator kernel

The monadic kernel `framequery.util._monadic` is not among the sources;
the combinators below are modelled from the specification's protocol
`sequence -> (matches | null, remainder, debug)`.  Failure is `none`, a
success carries the produced match list and the unconsumed suffix; the
`debug` component only feeds error reporting and is omitted. -/

/-- A parser over the token list, per the spec's combinator protocol. -/
def TokParser : Type := List String → Option (List MatchValue × List String)

/-- Modelled from the spec: `verbatim_token(*p) = m.one(m.verbatim(*p))`
consumes one token equal to any of the given words. -/
def verbatim_token (ws : List String) : TokParser := fun ts =>
  match ts with
  | [] => none
  | t :: rest => if ws.contains t then some ([.tok t], rest) else none

/-- Modelled from the spec: `svtok(*p) = m.ignore(m.one(m.verbatim(*p)))`
consumes one matching token and emits no match. -/
def svtok (ws : List String) : TokParser := fun ts =>
  match ts with
  | [] => none
  | t :: rest => if ws.contains t then some ([], rest) else none

/-- Modelled from the spec: `m.optional(a)` succeeds with zero matches
when `a` fails. -/
def toptional (p : TokParser) : TokParser := fun ts =>
  match p ts with
  | some r => some r
  | none => some ([], ts)

/-- Modelled from the spec: `m.literal(v)` consumes nothing and emits `v`. -/
def tliteral (v : MatchValue) : TokParser := fun ts => some ([v], ts)

/-- Modelled from the spec: `m.any(a, b, ...)` tries the alternatives left
to right and returns the first success. -/
def tany (ps : List TokParser) : TokParser := fun ts =>
  match ps with
  | [] => none
  | p :: rest => match p ts with
    | some r => some r
    | none => tany rest ts

/-- Modelled from the spec: `m.sequence(a, b, ...)` parses in order,
rewinding wholly on any failure, and concatenates the match lists. -/
def tsequence (ps : List TokParser) : TokParser := fun ts =>
  match ps with
  | [] => some ([], ts)
  | p :: rest =>
    match p ts with
    | none => none
    | some (ms, ts1) =>
      match tsequence rest ts1 with
      | none => none
      | some (ms2, ts2) => some (ms ++ ms2, ts2)

/-- Modelled from the spec: `m.transform(fn, a)` applies `fn` to the match
list on success. -/
def ttransform (f : List MatchValue → List MatchValue) (p : TokParser) : TokParser := fun ts =>
  match p ts with
  | none => none
  | some (ms, rest) => some (f ms, rest)

/-- Modelled from the spec: `m.keyword(name=a)` tags the match of `a` with
the field name (a singleton match is tagged directly, a composite match is
tagged as a list). -/
def tkeyword (name : String) (p : TokParser) : TokParser := fun ts =>
  match p ts with
  | none => none
  | some ([m], rest) => some ([.field name m], rest)
  | some (ms, rest) => some ([.field name (.list ms)], rest)

/-- Modelled from the spec: `m.construct(cls, ...)` runs the component
parsers in sequence and builds one AST node from the positional and
keyword-tagged matches via the class constructor, here supplied as a
builder function. -/
def tconstruct (builder : List MatchValue → Option Ast) (ps : List TokParser) : TokParser := fun ts =>
  match tsequence ps ts with
  | none => none
  | some (ms, rest) =>
    match builder ms with
    | none => none
    | some a => some ([.ast a], rest)

/-- Look up a keyword-tagged field in a match list. -/
def find_field (ms : List MatchValue) (name : String) : Option MatchValue :=
  ms.findSome? fun m =>
    match m with
    | .field n v => if n = name then some v else none
    | _ => none

/-! ## `call_set_function` (parser `_parser.py`, lines 324-335) -/

/-- The function-name tuple of `call_set_function`, transcribed from the
source.  The source writes `'some' 'count'` with no comma between the two
string literals; Python concatenates adjacent string literals, so the
tuple holds the single word `somecount` (written here as the same
concatenation) and a second `'count'` appears later in the tuple. -/
def set_function_names : List String :=
  ["avg", "max", "min", "sum", "every", "any", "some" ++ "count",
   "stddev_pop", "stddev_samp", "var_samp", "var_pop",
   "collect", "fusion", "intersection", "count", "first_value"]

/-- Constructor step of `m.construct(a.CallSetFunction, ...)`: reads the
`func` token, the optional `quantifier` token and the `args` list (the
grammar wraps the single argument value with `lambda t: [t]`). -/
def mk_call_set_function (ms : List MatchValue) : Option Ast :=
  match find_field ms "func" with
  | some (.tok fn) =>
    (match find_field ms "args" with
     | some (.list args) =>
       let argAsts := args.filterMap fun m =>
         match m with
         | .ast a => some a
         | _ => none
       let q := match find_field ms "quantifier" with
         | some (.tok s) => some s
         | _ => none
       some (.callSetFunction fn q argAsts)
     | _ => none)
  | _ => none

/-- `call_set_function`: a set-function call
`NAME ( [DISTINCT|ALL] value )`.  The `value` argument parser is the
recursive expression grammar, which the source references by closure; it
is passed in explicitly here. -/
def call_set_function (value : TokParser) : TokParser :=
  tconstruct mk_call_set_function
    [tkeyword "func" (verbatim_token set_function_names),
     svtok ["("],
     toptional (tkeyword "quantifier" (verbatim_token ["distinct", "all"])),
     tkeyword "args" (ttransform (fun t => [.list t]) value),
     svtok [")"]]

/-! ## `order_by_item` (parser `_parser.py`, lines 374-378) -/

/-- Constructor step of `m.construct(a.OrderBy, ...)`: reads the `value`
AST node and the `order` token. -/
def mk_order_by (ms : List MatchValue) : Option Ast :=
  match find_field ms "value", find_field ms "order" with
  | some (.ast v), some (.tok ord) => some (.orderBy v ord)
  | _, _ => none

/-- `order_by_item`: a value expression followed by `desc` or `asc`, the
`order` field falling back to the literal `'desc'` when neither keyword
follows. -/
def order_by_item (value : TokParser) : TokParser :=
  tconstruct mk_order_by
    [tkeyword "value" value,
     tkeyword "order" (tany [verbatim_token ["desc", "asc"], tliteral (.tok "desc")])]

/-- A one-token atomic value parser used to instantiate the `value`
argument of the grammar rules in concrete evaluations: it consumes a
single token that is not a parenthesis and emits it as a `Name` node. -/
def atom_value : TokParser := fun ts =>
  match ts with
  | [] => none
  | t :: rest => if t = "(" ∨ t = ")" then none else some ([.ast (.name t)], rest)

/-! ## Tokenizer (`splitter` / `tokenize`, parser `_parser.py`, lines 10-17 and 579-593)

The `splitter` applies the kernel's `repeat(any(...))` to the raw
character sequence.  Each alternative is one of the regex / verbatim /
string matchers listed in the source; the regex primitives of the missing
kernel are modelled from the spec as prefix matchers for the concrete
patterns the source uses. -/

/-- A matcher over the raw character sequence: on success it emits a list
of tokens (empty for the `m.ignore`d alternatives) plus the rest of the
input. -/
def RawMatcher : Type := List Char → Option (List String × List Char)

/-- Modelled from the spec: strip `-- ... \n` line comments
(`m.ignore(m.regex(r'--.*\n'))`); `.` does not match the newline, so the
comment body runs to the first newline, which is consumed too. -/
def comment_matcher : RawMatcher := fun s =>
  match s with
  | '-' :: '-' :: rest =>
    match rest.dropWhile (fun c => c ≠ '\n') with
    | '\n' :: r => some ([], r)
    | _ => none
  | _ => none

/-- Decimal digit test for the `\d` character class (the source operates
on ASCII SQL text). -/
def is_digit (c : Char) : Bool := '0' ≤ c ∧ c ≤ '9'

/-- The matched text of an optional exponent `(e[+-]?\d+)?` starting at
the given characters, together with the rest; an `e` not followed by
digits makes the optional group match empty, as regex backtracking does. -/
def exponent_opt (s : List Char) : List Char × List Char :=
  match s with
  | 'e' :: rest =>
    let (sign, rest1) :=
      match rest with
      | '+' :: r => (['+'], r)
      | '-' :: r => (['-'], r)
      | _ => (([] : List Char), rest)
    let ds := rest1.takeWhile is_digit
    if ds.isEmpty then ([], s) else ('e' :: sign ++ ds, rest1.drop ds.length)
  | _ => ([], s)

/-- Modelled from the spec: the float pattern
`(\d+\.\d*(e[+-]?\d+)?|\.\d+(e[+-]?\d+)?|\d+e[+-]?\d+)`, with the three
alternatives tried left to right as Python's `re` does. -/
def float_matcher : RawMatcher := fun s =>
  let ds := s.takeWhile is_digit
  let afterDs := s.drop ds.length
  match (if ds.isEmpty then none else
    match afterDs with
    | '.' :: r =>
      let frac := r.takeWhile is_digit
      let (expPart, rest) := exponent_opt (r.drop frac.length)
      some ([String.mk (ds ++ '.' :: frac ++ expPart)], rest)
    | _ => none : Option (List String × List Char)) with
  | some res => some res
  | none =>
    match s with
    | '.' :: r =>
      let frac := r.takeWhile is_digit
      if frac.isEmpty then none
      else
        let (expPart, rest) := exponent_opt (r.drop frac.length)
        some ([String.mk ('.' :: frac ++ expPart)], rest)
    | _ =>
      if ds.isEmpty then none
      else
        match afterDs with
        | 'e' :: r =>
          let (sign, rest1) :=
            match r with
            | '+' :: r2 => (['+'], r2)
            | '-' :: r2 => (['-'], r2)
            | _ => (([] : List Char), r)
          let eds := rest1.takeWhile is_digit
          if eds.isEmpty then none
          else some ([String.mk (ds ++ 'e' :: sign ++ eds)], rest1.drop eds.length)
        | _ => none

/-- Modelled from the spec: the integer pattern `\d+`. -/
def integer_matcher : RawMatcher := fun s =>
  let ds := s.takeWhile is_digit
  if ds.isEmpty then none else some ([String.mk ds], s.drop ds.length)

/-- The reserved-word set, transcribed from the source. -/
def keywords : List String :=
  ["and", "all", "as", "both", "by", "case", "cast", "count", "copy",
   "create", "distinct", "drop", "else", "end", "false", "from", "group",
   "having", "in", "join", "leading", "left", "outer", "like", "limit",
   "not", "null", "offset", "on", "options", "or", "order", "right",
   "select", "then", "trailing", "true", "show", "table", "to", "when",
   "where", "with"]

/-- The operator set, transcribed from the source (a Python set literal;
its iteration order is unspecified, which only matters for operators that
prefix each other, none of which the settled claims touch). -/
def operators : List String :=
  ["::", ",", ".", "(", ")", "*", "/", "%", "+", "-", "#", "~", "<<",
   ">>", "||", "&", "|", "^", "=", "!=", ">", "<", ">=", "<=", "<>",
   "!>", "!<"]

/-- The characters that must not follow a keyword match (`full_word`'s
`non_terminating`: ASCII letters, digits and underscore, parser
`_parser.py` lines 59-73). -/
def non_terminating (c : Char) : Bool :=
  ('a' ≤ c ∧ c ≤ 'z') ∨ ('A' ≤ c ∧ c ≤ 'Z') ∨ is_digit c ∨ c = '_'

/-- Modelled from the spec: one verbatim word of
`m.map_verbatim(lambda s: s.lower(), *words)` against the raw input; the
match is case-insensitive and the consumed text is emitted lower-cased. -/
def word_prefix (w : String) (s : List Char) : Option (List Char) :=
  if (s.take w.length).map Char.toLower = w.toList then some (s.drop w.length) else none

/-- Modelled from the spec: keyword matching,
`full_word(m.map_verbatim(lambda s: s.lower(), *keywords))` — a reserved
word, provided the next character is not a letter, digit or underscore. -/
def keyword_matcher (ws : List String) : RawMatcher := fun s =>
  match ws with
  | [] => none
  | w :: rest =>
    match word_prefix w s with
    | some r =>
      match r with
      | [] => some ([w], [])
      | c :: _ => if non_terminating c then keyword_matcher rest s else some ([w], r)
    | none => keyword_matcher rest s

/-- Modelled from the spec: operator matching,
`m.map_verbatim(lambda s: s.lower(), *operators)` with no word-boundary
requirement. -/
def operator_matcher (ws : List String) : RawMatcher := fun s =>
  match ws with
  | [] => none
  | w :: rest =>
    match word_prefix w s with
    | some r => some ([w], r)
    | none => operator_matcher rest s

/-- A continuation character of the name pattern: `\w` (ASCII letters,
digits, underscore, and the CJK range the first-character class allows). -/
def is_word_char (c : Char) : Bool :=
  ('a' ≤ c ∧ c ≤ 'z') ∨ ('A' ≤ c ∧ c ≤ 'Z') ∨ is_digit c ∨ c = '_' ∨
    (0x4e00 ≤ c.toNat ∧ c.toNat ≤ 0x9fa5)

/-- Modelled from the spec: the name pattern
`[a-zA-Z_一-龥]\w*`. -/
def name_matcher : RawMatcher := fun s =>
  match s with
  | [] => none
  | c :: _ =>
    if ('a' ≤ c ∧ c ≤ 'z') ∨ ('A' ≤ c ∧ c ≤ 'Z') ∨ c = '_' ∨
        (0x4e00 ≤ c.toNat ∧ c.toNat ≤ 0x9fa5) then
      let w := s.takeWhile is_word_char
      some ([String.mk w], s.drop w.length)
    else none

/-- Modelled from the spec: skip whitespace (`m.ignore(m.regex(r'\s+'))`). -/
def ws_matcher : RawMatcher := fun s =>
  let w := s.takeWhile Char.isWhitespace
  if w.isEmpty then none else some ([], s.drop w.length)

/-- Modelled from the spec: `m.string(quote)` consumes a quoted run
`quote ... quote`, quotes retained. -/
def string_matcher (q : Char) : RawMatcher := fun s =>
  match s with
  | c :: rest =>
    if c = q then
      let body := rest.takeWhile (fun d => d ≠ q)
      match rest.drop body.length with
      | c2 :: r => if c2 = q then some ([String.mk (q :: body ++ [q])], r) else none
      | [] => none
    else none
  | _ => none

/-- The alternatives of `splitter`, in source order: comment, float,
integer, keyword, operator, name, whitespace, single- and double-quoted
strings. -/
def splitter_alternatives : List RawMatcher :=
  [comment_matcher, float_matcher, integer_matcher,
   keyword_matcher keywords, operator_matcher operators,
   name_matcher, ws_matcher, string_matcher '\'', string_matcher '"']

/-- Modelled from the spec: `m.any(...)` over raw matchers. -/
def raw_any (ms : List RawMatcher) : RawMatcher := fun s =>
  match ms with
  | [] => none
  | m :: rest =>
    match m s with
    | some r => some r
    | none => raw_any rest s

/-- Modelled from the spec: `m.repeat(a)` — zero or more matches, greedy,
stopping at the first failure.  The fuel argument bounds the iteration
count; every splitter alternative consumes at least one character, so
`length + 1` fuel is never exhausted. -/
def raw_repeat (m : RawMatcher) : Nat → List Char → List String × List Char
  | 0, s => ([], s)
  | fuel + 1, s =>
    match m s with
    | none => ([], s)
    | some (ts, rest) =>
      let (ts2, rest2) := raw_repeat m fuel rest
      (ts ++ ts2, rest2)

/-- `splitter`: fold the raw SQL text into tokens. -/
def splitter (query : String) : List String × List Char :=
  raw_repeat (raw_any splitter_alternatives) (query.length + 1) query.toList

/-- `tokenize(query)`: run the splitter and raise
`ValueError('extra tokens: ...')` when input remains. -/
def tokenize (query : String) : Except Err (List String) :=
  match splitter query with
  | (parts, []) => .ok parts
  | (_, rest) => .error (.valueError ("extra tokens: " ++ String.mk rest))

/-! ## The executor data model (`_base_executor.py`)

`BaseExecutor` consumes DAG nodes over a pandas-like table backend.  The
abstract methods the class leaves to its subclasses (`_get_dual`,
`_combine_series`, `_merge`, `_evaluate_non_equality_join`,
`_evaluate_aggregation_grouped`, `_dataframe_from_scalars`,
`evaluate_value`) and the pandas primitives it calls (row masking,
`reset_index`, `drop_duplicates`, the scalar series aggregates) are
collected in a `Backend` structure; the executor functions take the
backend as an explicit argument, mirroring dynamic dispatch on `self`. -/

/-- A two-part column identifier `table_id.column_id`. -/
def ColName : Type := String × String
deriving DecidableEq, Repr

/-- Modelled from the spec: `column_from_parts` of the missing
`_pandas_util` module builds the two-part identifier. -/
def column_from_parts (table_id column_id : String) : ColName := (table_id, column_id)

/-- A backend table: named columns over rows of integer cell values.
Cell values are specialised to `Int`; none of the settled claims depends
on the cell type. -/
structure Table where
  colNames : List ColName
  rows : List (List Int)
deriving DecidableEq, Repr

/-- Modelled from the spec: the canonical 1-row, 0-column table the
pandas executor's `_get_dual` (absent from the sources) returns for
`DUAL`. -/
def pandas_dual : Table := { colNames := [], rows := [[]] }

/-- Column access `table[col]`: project every row onto the column's
position; a missing column is a `KeyError`, as for a pandas frame. -/
def get_column (t : Table) (c : ColName) : Except Err (List Int) :=
  match t.colNames.indexOf? c with
  | some i => .ok (t.rows.map (fun r => r.getD i 0))
  | none => .error (.keyError (c.1 ++ "." ++ c.2))

/-- The value expressions the executor-side claims touch: the old-parser
classes `ColumnReference` (a dotted reference, kept as its name parts) and
`GeneralSetFunction(function, quantifier, value)`, plus binary operations
and integer literals so that predicates such as join conditions are
expressible. -/
inductive Expr where
  | columnReference (parts : List String)
  | generalSetFunction (function : String) (quantifier : Option String) (value : Expr)
  | binaryOp (op : String) (left : Expr) (right : Expr)
  | intLit (value : Int)
deriving DecidableEq, Repr

/-- Whether a value is a `GeneralSetFunction` instance. -/
def is_general_set_function : Expr → Bool
  | .generalSetFunction _ _ _ => true
  | _ => false

/-- Whether a value is a `ColumnReference` instance. -/
def is_column_reference : Expr → Bool
  | .columnReference _ => true
  | _ => false

/-- A projected column of a `Transform` or `Aggregate` node: the AST
`Column(value, alias)`. -/
structure Column where
  value : Expr
  alias_ : Option String
deriving DecidableEq, Repr

/-- The logical DAG operators of `framequery._dag` that `BaseExecutor`
evaluates. -/
inductive Dag where
  | literal (table : Table)
  | getTable (table : String) (alias_ : Option String)
  | defineTables (tables : List (String × Dag)) (node : Dag)
  | transform (table : Dag) (columns : List Column)
  | filter (table : Dag) (filter_ : Expr)
  | dropDuplicates (table : Dag)
  | aggregate (table : Dag) (columns : List Column) (group_by : Option (List Expr))
  | join (left : Dag) (right : Dag) (how : String) (on_ : Expr)

/-- A scope: the mapping from table names to tables, threaded through
evaluation; insertion is modelled by consing, lookup by first match. -/
abbrev Scope : Type := List (String × Table)

/-- The pandas-like backend: the operations `BaseExecutor` requires of its
subclasses and of the table library. -/
structure Backend where
  get_dual : Table
  merge : Table → Table → String → List ColName → List ColName → Table
  evaluate_non_equality_join : Scope → Dag → Nat → Except Err (Table × Nat)
  evaluate_value : Expr → Table → List Int
  combine_series : List (ColName × List Int) → Table
  dataframe_from_scalars : List (ColName × Int) → Table
  evaluate_aggregation_grouped : Table → List Column → List Expr → Nat → Except Err (Table × Nat)
  mask_rows : Table → List Int → Table
  reset_index : Table → Table
  drop_duplicates : Table → Table
  series_sum : List Int → Int
  series_mean : List Int → Int
  series_min : List Int → Int
  series_max : List Int → Int
  series_count : List Int → Int
  iloc0 : List Int → Int

/-- Modelled from the spec: the default id generator of the missing
`_util.executor` module yields the ids `$0`, `$1`, ... in order; the
executor's state is the next counter value. -/
def default_id (n : Nat) : String := "$" ++ toString n

/-- Modelled from the spec: `ensure_table_columns(name, table)` of the
missing `_pandas_util` module rebrands every column of the table with the
given name as its `table_id` part. -/
def ensure_table_columns (name : String) (t : Table) : Table :=
  { t with colNames := t.colNames.map (fun c => (name, c.2)) }

/-- Modelled from the spec: `get_selected_column_name(col)` of the missing
old-parser module returns the alias when the AST `Column` carries one,
the terminal name when its value is a single `ColumnReference`, and
`None` otherwise. -/
def get_selected_column_name (col : Column) : Option String :=
  match col.alias_ with
  | some a => some a
  | none =>
    match col.value with
    | .columnReference parts => parts.getLast?
    | _ => none

/-- `BaseExecutor._get_selected_column_name` (lines 36-41): the
`get_selected_column_name` result, or the next id from the executor's id
generator. -/
def executor_selected_column_name (col : Column) (n : Nat) : String × Nat :=
  match get_selected_column_name col with
  | some cid => (cid, n)
  | none => (default_id n, n + 1)

/-- Modelled from the spec: `_normalize_col_ref` (implemented outside the
sources) resolves a reference against a column set: a dotted `t.c` must
match both parts, a bare `c` must match the `column_id` part; no match or
more than one match is a `ValueError`. -/
def normalize_col_ref (parts : List String) (columns : List ColName) : Except Err ColName :=
  let ms := columns.filter fun c =>
    match parts with
    | [x] => c.2 = x
    | [tname, x] => c.1 = tname ∧ c.2 = x
    | _ => false
  match ms with
  | [c] => .ok c
  | [] => .error (.valueError "could not find column")
  | _ => .error (.valueError "ambiguous column reference")

/-- Modelled from the spec: `is_equality_join` of the missing
`_pandas_util` module — the `on` condition is a conjunction of equalities
between column references. -/
def is_equality_join : Expr → Bool
  | .binaryOp "and" a b => is_equality_join a && is_equality_join b
  | .binaryOp "=" (.columnReference _) (.columnReference _) => true
  | _ => false

/-- The conjuncts of a predicate built with `and`. -/
def flatten_and : Expr → List Expr
  | .binaryOp "and" a b => flatten_and a ++ flatten_and b
  | e => [e]

/-- Modelled from the spec: split one equality conjunct into a left-side
and a right-side key, resolving each reference against the corresponding
column set. -/
def split_equality (left_cols right_cols : List ColName) : Expr → Except Err (ColName × ColName)
  | .binaryOp "=" (.columnReference a) (.columnReference b) =>
    (match normalize_col_ref a left_cols, normalize_col_ref b right_cols with
     | .ok la, .ok rb => .ok (la, rb)
     | _, _ =>
       match normalize_col_ref b left_cols, normalize_col_ref a right_cols with
       | .ok lb, .ok ra => .ok (lb, ra)
       | _, _ => .error (.valueError "cannot split join condition"))
  | _ => .error (.valueError "cannot split join condition")

/-- Modelled from the spec: `as_pandas_join_condition` of the missing
`_pandas_util` module extracts the left and right key lists of an
equality join condition. -/
def as_pandas_join_condition (left_cols right_cols : List ColName) (on_ : Expr) :
    Except Err (List ColName × List ColName) :=
  match (flatten_and on_).mapM (split_equality left_cols right_cols) with
  | .error e => .error e
  | .ok pairs => .ok (pairs.map Prod.fst, pairs.map Prod.snd)

/-- The aggregate implementations of `BaseExecutor._agg` (lines 172-179),
keyed by upper-cased function name. -/
def agg_function_names : List String :=
  ["SUM", "AVG", "MIN", "MAX", "COUNT", "FIRST_VALUE"]

/-- Python's `str.upper` on the ASCII function names `_agg` handles:
upper-case every character. -/
def str_upper (s : String) : String := String.mk (s.data.map Char.toUpper)

/-- `BaseExecutor._first` (lines 204-208) applied to a series: `s.iloc[0]`
(the non-series branch `s.first()` is unreachable from `_agg`, whose
argument is always a column). -/
def executor_first (b : Backend) (s : List Int) : Int := b.iloc0 s

/-- `BaseExecutor._agg(node, table, columns)` (lines 156-190): the value
must be a `GeneralSetFunction` over a bare `ColumnReference`
(`ValueError` otherwise); the reference is normalized against `columns`
and the column extracted from the table; a set quantifier is rejected by
`assert node.quantifier is None`; the upper-cased function name selects
the scalar aggregate, an unknown name being a `ValueError`. -/
def executor_agg (b : Backend) (node : Expr) (t : Table) (columns : List ColName) :
    Except Err Int :=
  match node with
  | .generalSetFunction fn q v =>
    let function := str_upper fn
    match v with
    | .columnReference parts =>
      (match normalize_col_ref parts columns with
       | .error e => .error e
       | .ok col_ref =>
         match get_column t col_ref with
         | .error e => .error e
         | .ok col =>
           match q with
           | some _ => .error .assertionError
           | none =>
             match function with
             | "SUM" => .ok (b.series_sum col)
             | "AVG" => .ok (b.series_mean col)
             | "MIN" => .ok (b.series_min col)
             | "MAX" => .ok (b.series_max col)
             | "COUNT" => .ok (b.series_count col)
             | "FIRST_VALUE" => .ok (executor_first b col)
             | _ => .error (.valueError ("unknown aggregation function " ++ function)))
    | _ => .error (.valueError "indirect aggregations not supported")
  | _ => .error (.valueError "indirect aggregations not supported")

/-! ## The evaluator -/

/-- `BaseExecutor.evaluate_get_table` (lines 57-66): `DUAL` yields the
backend's dual table; any other name is looked up in the scope (the
Python mapping subscript raises `KeyError` when absent); the result is
rebranded with the node's alias, or with the table name when no alias is
given. -/
def evaluate_get_table (b : Backend) (table : String) (alias_ : Option String)
    (scope : Scope) : Except Err Table :=
  if table = "DUAL" then
    .ok (ensure_table_columns (alias_.getD table) b.get_dual)
  else
    match scope.lookup table with
    | some t => .ok (ensure_table_columns (alias_.getD table) t)
    | none => .error (.keyError table)

/-- The column loop of `BaseExecutor.evaluate_transform` (lines 83-87):
each projected column gets its id from `_get_selected_column_name` and
its series from `evaluate_value`; entries are accumulated in source
order, threading the id counter. -/
def transform_entries (b : Backend) (table_id : String) (t : Table) :
    List Column → Nat → List (ColName × List Int) × Nat
  | [], n => ([], n)
  | col :: rest, n =>
    let (col_id, n1) := executor_selected_column_name col n
    let value := b.evaluate_value col.value t
    let (es, n2) := transform_entries b table_id t rest n1
    ((column_from_parts table_id col_id, value) :: es, n2)

/-- The column loop of `BaseExecutor._evaluate_aggregation_base`
(lines 150-152): each output column id is the alias when present and a
fresh generator id otherwise; the value is `_agg` of the column's
expression. -/
def aggregation_entries (b : Backend) (table_id : String) (t : Table)
    (columns : List ColName) : List Column → Nat → Except Err (List (ColName × Int) × Nat)
  | [], n => .ok ([], n)
  | col :: rest, n =>
    let (col_id, n1) :=
      match col.alias_ with
      | some a => (a, n)
      | none => (default_id n, n + 1)
    match executor_agg b col.value t columns with
    | .error e => .error e
    | .ok v =>
      match aggregation_entries b table_id t columns rest n1 with
      | .error e => .error e
      | .ok (es, n2) => .ok ((column_from_parts table_id col_id, v) :: es, n2)

/-- `BaseExecutor._evaluate_aggregation_base(node, table, columns,
table_id)` (lines 143-154): draw a fresh table id when none is supplied,
then run the column loop. -/
def evaluate_aggregation_base (b : Backend) (cols : List Column) (t : Table)
    (columns : List ColName) (table_id : Option String) (n : Nat) :
    Except Err (List (ColName × Int) × Nat) :=
  let (tid, n0) :=
    match table_id with
    | some x => (x, n)
    | none => (default_id n, n + 1)
  aggregation_entries b tid t columns cols n0

mutual
/-- The size of a DAG node, counting every operator node once and
ignoring embedded tables and expressions; the termination measure of
`evaluate`. -/
def dagSize : Dag → Nat
  | .literal _ => 1
  | .getTable _ _ => 1
  | .defineTables ts body => 1 + dagPairsSize ts + dagSize body
  | .transform t _ => 1 + dagSize t
  | .filter t _ => 1 + dagSize t
  | .dropDuplicates t => 1 + dagSize t
  | .aggregate t _ _ => 1 + dagSize t
  | .join l r _ _ => 1 + dagSize l + dagSize r

def dagPairsSize : List (String × Dag) → Nat
  | [] => 0
  | (_, d) :: rest => dagSize d + dagPairsSize rest
end

theorem dagSize_pos (d : Dag) : 1 ≤ dagSize d := by
  cases d <;> simp [dagSize] <;> omega

/-- `BaseExecutor.evaluate` (line 51): dispatch over the DAG node kinds,
threading the scope and the id-generator counter.

* `evaluate_literal` (lines 54-55) returns the embedded table.
* `evaluate_get_table` (lines 57-66) as above.
* `evaluate_define_tables` (lines 68-74) copies the scope and binds each
  sub-plan's result under its name before evaluating the body; the loop
  is unrolled head-first, each iteration evaluating the sub-plan in the
  scope extended by all earlier bindings.
* `evaluate_transform` (lines 76-89) draws a fresh table id, runs the
  column loop and combines the resulting series.
* `evaluate_filter` (lines 91-95) masks the rows by the evaluated
  predicate and resets the index.
* `evaluate_drop_duplicates` (lines 97-100) defers to the backend.
* `evaluate_aggregate` (lines 102-110) dispatches on `group_by`: scalar
  aggregation wraps `_evaluate_aggregation_base` in
  `_dataframe_from_scalars`, grouped aggregation is backend-provided.
* `evaluate_join` (lines 112-128) takes the non-equality path unless
  `is_equality_join(on)`; otherwise it evaluates both sides, asserts the
  join kind, extracts the key lists, merges, and in strict mode
  re-evaluates `Filter(Literal(result), on)` on the merge result. -/
def evaluate (b : Backend) (strict : Bool) : Dag → Scope → Nat → Except Err (Table × Nat)
  | .literal t, _, n => .ok (t, n)
  | .getTable name alias_, scope, n =>
    (match evaluate_get_table b name alias_ scope with
     | .error e => .error e
     | .ok t => .ok (t, n))
  | .defineTables [] body, scope, n => evaluate b strict body scope n
  | .defineTables ((name, sub) :: rest) body, scope, n =>
    (match evaluate b strict sub scope n with
     | .error e => .error e
     | .ok (t, n1) => evaluate b strict (.defineTables rest body) ((name, t) :: scope) n1)
  | .transform td cols, scope, n =>
    (match evaluate b strict td scope n with
     | .error e => .error e
     | .ok (t, n1) =>
       let table_id := default_id n1
       let (entries, n2) := transform_entries b table_id t cols (n1 + 1)
       .ok (b.combine_series entries, n2))
  | .filter td f, scope, n =>
    (match evaluate b strict td scope n with
     | .error e => .error e
     | .ok (t, n1) =>
       let condition := b.evaluate_value f t
       .ok (b.reset_index (b.mask_rows t condition), n1))
  | .dropDuplicates td, scope, n =>
    (match evaluate b strict td scope n with
     | .error e => .error e
     | .ok (t, n1) => .ok (b.drop_duplicates t, n1))
  | .aggregate td cols gb, scope, n =>
    (match evaluate b strict td scope n with
     | .error e => .error e
     | .ok (t, n1) =>
       match gb with
       | none =>
         (match evaluate_aggregation_base b cols t t.colNames none n1 with
          | .error e => .error e
          | .ok (values, n2) => .ok (b.dataframe_from_scalars values, n2))
       | some g => b.evaluate_aggregation_grouped t cols g n1)
  | .join l r how on_, scope, n =>
    if is_equality_join on_ then
      match evaluate b strict l scope n with
      | .error e => .error e
      | .ok (lt, n1) =>
        match evaluate b strict r scope n1 with
        | .error e => .error e
        | .ok (rt, n2) =>
          if how = "inner" ∨ how = "outer" ∨ how = "left" ∨ how = "right" then
            match as_pandas_join_condition lt.colNames rt.colNames on_ with
            | .error e => .error e
            | .ok (left_on, right_on) =>
              let result := b.merge lt rt how left_on right_on
              if strict then
                evaluate b strict (.filter (.literal result) on_) scope n2
              else
                .ok (result, n2)
          else .error .assertionError
    else b.evaluate_non_equality_join scope (.join l r how on_) n
termination_by d _ _ => dagSize d
decreasing_by
  all_goals simp [dagSize, dagPairsSize]
  all_goals try omega
  · have h1 := dagSize_pos sub
    omega
  · have h1 := dagSize_pos l
    have h2 := dagSize_pos r
    simp [dagSize]
    omega

/-- The scope and counter reached after evaluating a prefix of a
`DefineTables` binding list: each binding's sub-plan is evaluated in the
scope extended by all earlier bindings, and its result is inserted under
its name. -/
def scope_after (b : Backend) (strict : Bool) :
    Scope → List (String × Dag) → Nat → Except Err (Scope × Nat)
  | scope, [], n => .ok (scope, n)
  | scope, (name, sub) :: rest, n =>
    match evaluate b strict sub scope n with
    | .error e => .error e
    | .ok (t, n1) => scope_after b strict ((name, t) :: scope) rest n1

/-- The claim's output-column-id rule: the alias when the AST `Column`
carries one; the terminal name when the value is a single column
reference; a fresh generator id otherwise.  This definition follows the
claim's words and is compared against the executor's id assignment. -/
def spec_output_col_id (col : Column) (n : Nat) : String × Nat :=
  match col.alias_ with
  | some a => (a, n)
  | none =>
    match col.value with
    | .columnReference parts =>
      (match parts.getLast? with
       | some last => (last, n)
       | none => (default_id n, n + 1))
    | _ => (default_id n, n + 1)

/-- The transform entry list predicted by the claim's id rule. -/
def spec_transform_entries (b : Backend) (table_id : String) (t : Table) :
    List Column → Nat → List (ColName × List Int) × Nat
  | [], n => ([], n)
  | col :: rest, n =>
    let (col_id, n1) := spec_output_col_id col n
    let value := b.evaluate_value col.value t
    let (es, n2) := spec_transform_entries b table_id t rest n1
    ((column_from_parts table_id col_id, value) :: es, n2)

/-- The aggregate output keys predicted by the claim's id rule. -/
def spec_aggregation_keys (table_id : String) :
    List Column → Nat → List ColName × Nat
  | [], n => ([], n)
  | col :: rest, n =>
    let (col_id, n1) := spec_output_col_id col n
    let (ks, n2) := spec_aggregation_keys table_id rest n1
    (column_from_parts table_id col_id :: ks, n2)

/-! ## Concrete fixtures for witnesses -/

/-- A concrete backend instance used by the closed witness evaluations. -/
def triv_backend : Backend where
  get_dual := pandas_dual
  merge := fun l _ _ _ _ => l
  evaluate_non_equality_join := fun _ _ n => .ok (pandas_dual, n)
  evaluate_value := fun _ t => t.rows.map (fun _ => 1)
  combine_series := fun entries =>
    { colNames := entries.map Prod.fst, rows := [entries.map (fun e => e.2.getD 0 0)] }
  dataframe_from_scalars := fun values =>
    { colNames := values.map Prod.fst, rows := [values.map Prod.snd] }
  evaluate_aggregation_grouped := fun t _ _ n => .ok (t, n)
  mask_rows := fun t _ => t
  reset_index := fun t => t
  drop_duplicates := fun t => t
  series_sum := fun s => s.foldl (· + ·) 0
  series_mean := fun _ => 0
  series_min := fun s => s.foldl min 0
  series_max := fun s => s.foldl max 0
  series_count := fun s => s.length
  iloc0 := fun s => s.getD 0 0

/-- A concrete two-column, two-row table used by the witnesses. -/
def sample_table : Table :=
  { colNames := [("t", "a"), ("t", "b")], rows := [[1, 10], [2, 20]] }

/-- A second concrete table used by the witnesses. -/
def sample_table2 : Table :=
  { colNames := [("u", "k")], rows := [[1], [2]] }

/-! ## Theorems: parser claims -/

theorem alternating_items_length (ps : List (String × Ast)) :
    ∀ v, (alternating_items v ps).length = 2 * ps.length + 1 := by
  induction ps with
  | nil => intro v; simp [alternating_items]
  | cons p rest ih =>
    intro v
    obtain ⟨op, w⟩ := p
    simp [alternating_items, ih w]
    omega

theorem bbt_impl_alternating (ps : List (String × Ast)) :
    ∀ v, bbt_impl (alternating_items v ps) = .ok (.ast (spec_right_nested v ps)) := by
  induction ps with
  | nil => intro v; simp [alternating_items, bbt_impl, spec_right_nested]
  | cons p rest ih =>
    intro v
    obtain ⟨op, w⟩ := p
    have hlen : ((alternating_items w rest).length + 1 + 1) % 2 = 1 := by
      rw [alternating_items_length]
      omega
    simp only [alternating_items]
    rw [bbt_impl]
    simp [hlen, ih w, spec_right_nested]

/-- C2: `build_binary_tree` maps the singleton-wrapped odd-length list
`[v0, op1, v1, op2, v2, ...]` to the single right-nested tree
`BinaryOp(op1, v0, BinaryOp(op2, v1, ...))`; in particular a one-element
list is returned unchanged and a five-element list becomes
`BinaryOp(op1, v0, BinaryOp(op2, v1, v2))`. -/
theorem claim2_build_binary_tree (v0 v1 v2 : Ast) (op1 op2 : String)
    (ps : List (String × Ast)) :
    build_binary_tree [.list (alternating_items v0 ps)]
        = .ok [.ast (spec_right_nested v0 ps)]
    ∧ build_binary_tree [.list [.ast v0]] = .ok [.ast v0]
    ∧ build_binary_tree [.list [.ast v0, .tok op1, .ast v1, .tok op2, .ast v2]]
        = .ok [.ast (.binaryOp op1 v0 (.binaryOp op2 v1 v2))] := by
  refine ⟨?_, ?_, ?_⟩
  · simp [build_binary_tree, bbt_impl_alternating]
  · have h := bbt_impl_alternating [] v0
    simp [alternating_items, spec_right_nested] at h
    simp [build_binary_tree, h]
  · have h := bbt_impl_alternating [(op1, v1), (op2, v2)] v0
    simp [alternating_items, spec_right_nested] at h
    simp [build_binary_tree, h]

theorem build_joins_fold (js : List (String × Option Ast × Ast × Ast)) :
    ∀ base : Ast,
      (js.map (fun j => MatchValue.ast (.join j.1 j.2.1 j.2.2.1 j.2.2.2))).foldlM
          join_update (.ast base)
        = .ok (.ast (spec_join_chain base (js.map (fun j => (j.1, j.2.2.1, j.2.2.2))))) := by
  induction js with
  | nil => intro base; rfl
  | cons j rest ih =>
    intro base
    obtain ⟨how, oldLeft, right, on_⟩ := j
    simp only [List.map_cons, List.foldlM_cons, join_update]
    simpa [spec_join_chain] using ih (.join how (some base) right on_)

theorem spec_join_chain_snoc (ps : List (String × Ast × Ast)) :
    ∀ (base : Ast) (how : String) (right on_ : Ast),
      spec_join_chain base (ps ++ [(how, right, on_)])
        = .join how (some (spec_join_chain base ps)) right on_ := by
  induction ps with
  | nil => intro base how right on_; simp [spec_join_chain]
  | cons p rest ih =>
    intro base how right on_
    obtain ⟨h1, r1, o1⟩ := p
    simp [spec_join_chain, ih]

/-- C7: `build_joins` folds `[base, join1, ..., joinN]` (the tail all
`Join` nodes) into the single left-nested join chain in which each
subsequent join's `left` field is the chain built so far — so `joinN`
sits at the root and `base` at the leftmost leaf, as the appended-join
equation of `spec_join_chain` shows — and it returns `[base]` unchanged
for an empty tail. -/
theorem claim7_build_joins (base : Ast) (js : List (String × Option Ast × Ast × Ast))
    (ps : List (String × Ast × Ast)) (how : String) (right on_ : Ast) :
    build_joins (.ast base :: js.map (fun j => MatchValue.ast (.join j.1 j.2.1 j.2.2.1 j.2.2.2)))
        = .ok [.ast (spec_join_chain base (js.map (fun j => (j.1, j.2.2.1, j.2.2.2))))]
    ∧ build_joins [.ast base] = .ok [.ast base]
    ∧ spec_join_chain base (ps ++ [(how, right, on_)])
        = .join how (some (spec_join_chain base ps)) right on_ := by
  refine ⟨?_, ?_, spec_join_chain_snoc ps base how right on_⟩
  · simp [build_joins, build_joins_fold]
  · rfl

/-- C8: tokenizing `select 1 -- comment\n , 2` yields exactly
`['select', '1', ',', '2']` — the line comment and all whitespace are
stripped, the keyword is emitted lower-cased, and the numeric literals
keep their textual form. -/
theorem claim8_tokenize_example :
    tokenize "select 1 -- comment\n , 2" = .ok ["select", "1", ",", "2"] := rfl

/-- C4: the set-function grammar rule rejects `SOME` — on the tokens of
`some(x)` it fails for every argument value parser, because the adjacent
string literals `'some' 'count'` in the source concatenate to the single
word `somecount`; that word (and `count`, via its second occurrence in
the tuple) is accepted instead. -/
theorem claim4_call_set_function_somecount :
    (∀ value : TokParser, call_set_function value ["some", "(", "x", ")"] = none)
    ∧ call_set_function atom_value ["somecount", "(", "x", ")"]
        = some ([.ast (.callSetFunction "somecount" none [.name "x"])], [])
    ∧ call_set_function atom_value ["count", "(", "x", ")"]
        = some ([.ast (.callSetFunction "count" none [.name "x"])], []) :=
  ⟨fun _ => rfl, rfl, rfl⟩

/-- C10: when the parsed value expression is not followed by `asc` or
`desc`, `order_by_item` produces an `OrderBy` node whose `order` field is
the default literal `'desc'` (descending). -/
theorem claim10_order_by_default_desc (value : TokParser) (ts rest : List String) (e : Ast)
    (hv : value ts = some ([.ast e], rest))
    (h1 : rest.head? ≠ some "asc") (h2 : rest.head? ≠ some "desc") :
    order_by_item value ts = some ([.ast (.orderBy e "desc")], rest) := by
  have horder : tany [verbatim_token ["desc", "asc"], tliteral (.tok "desc")] rest
      = some ([.tok "desc"], rest) := by
    cases rest with
    | nil => rfl
    | cons t r =>
      simp only [List.head?] at h1 h2
      have ht1 : t ≠ "asc" := by intro h; exact h1 (by rw [h])
      have ht2 : t ≠ "desc" := by intro h; exact h2 (by rw [h])
      simp [tany, verbatim_token, tliteral, ht1, ht2]
  simp [order_by_item, tconstruct, tsequence, tkeyword, hv, horder, mk_order_by, find_field]

/-- Witness for C10 at a concrete input: `x` with no trailing order
keyword parses to `OrderBy(Name('x'), 'desc')`. -/
theorem claim10_order_by_default_desc_witness :
    order_by_item atom_value ["x"] = some ([.ast (.orderBy (.name "x") "desc")], []) :=
  claim10_order_by_default_desc atom_value ["x"] [] (.name "x") rfl
    (by simp) (by simp)

/-! ## Theorems: executor claims -/

theorem ensure_table_columns_dual (name : String) :
    ensure_table_columns name pandas_dual = pandas_dual := rfl

/-- C6 (amended): `evaluate_get_table` returns the canonical 1-row
0-column dual table for the name `DUAL`; otherwise it returns the scope's
table under that name rebranded with the node's alias (or the table name
when no alias is supplied); and when the name is not `DUAL` and absent
from the scope it raises a `KeyError` — the Python mapping subscript
error — not a `ValueError`. -/
theorem claim6_evaluate_get_table (b : Backend) (name : String) (alias_ : Option String)
    (s : Scope) (hb : b.get_dual = pandas_dual) :
    (name = "DUAL" → evaluate_get_table b name alias_ s = .ok pandas_dual)
    ∧ (∀ t, name ≠ "DUAL" → s.lookup name = some t →
        evaluate_get_table b name alias_ s = .ok (ensure_table_columns (alias_.getD name) t))
    ∧ (name ≠ "DUAL" → s.lookup name = none →
        evaluate_get_table b name alias_ s = .error (.keyError name)) := by
  refine ⟨?_, ?_, ?_⟩
  · intro h
    subst h
    simp [evaluate_get_table, hb, ensure_table_columns_dual]
  · intro t hne hl
    simp [evaluate_get_table, hne, hl]
  · intro hne hl
    simp [evaluate_get_table, hne, hl]

/-- Counterexample for C6 as stated: a name absent from the scope raises
a `KeyError`, which is not a `ValueError`. -/
theorem claim6_get_table_counterexample :
    evaluate_get_table triv_backend "missing" none [] = .error (.keyError "missing")
    ∧ Err.is_value_error (.keyError "missing") = false := ⟨rfl, rfl⟩

/-- Witness for C6 at concrete inputs: the `DUAL` branch and the rebranding
branch of `claim6_evaluate_get_table`. -/
theorem claim6_evaluate_get_table_witness :
    evaluate_get_table triv_backend "DUAL" none [] = .ok pandas_dual
    ∧ evaluate_get_table triv_backend "t" (some "x") [("t", sample_table)]
        = .ok (ensure_table_columns "x" sample_table) :=
  ⟨(claim6_evaluate_get_table triv_backend "DUAL" none [] rfl).1 rfl,
   (claim6_evaluate_get_table triv_backend "t" (some "x") [("t", sample_table)] rfl).2.1
     sample_table (by decide) rfl⟩

/-- C5: `_agg` raises `ValueError` exactly for a non-set-function
expression, a set-function argument that is not a bare column reference,
or (with the column resolved) an upper-cased function name outside
`{SUM, AVG, MIN, MAX, COUNT, FIRST_VALUE}`; a set quantifier trips the
`assert` (an `AssertionError`); otherwise the matching scalar aggregate
of the referenced column is returned. -/
theorem claim5_agg_errors (b : Backend) (t : Table) (columns : List ColName) :
    (∀ node, is_general_set_function node = false →
      executor_agg b node t columns = .error (.valueError "indirect aggregations not supported"))
    ∧ (∀ fn q v, is_column_reference v = false →
      executor_agg b (.generalSetFunction fn q v) t columns
        = .error (.valueError "indirect aggregations not supported"))
    ∧ (∀ fn qq parts c col, normalize_col_ref parts columns = .ok c →
        get_column t c = .ok col →
        executor_agg b (.generalSetFunction fn (some qq) (.columnReference parts)) t columns
          = .error .assertionError)
    ∧ (∀ fn parts c col, normalize_col_ref parts columns = .ok c →
        get_column t c = .ok col →
        executor_agg b (.generalSetFunction fn none (.columnReference parts)) t columns
          = if str_upper fn = "SUM" then .ok (b.series_sum col)
            else if str_upper fn = "AVG" then .ok (b.series_mean col)
            else if str_upper fn = "MIN" then .ok (b.series_min col)
            else if str_upper fn = "MAX" then .ok (b.series_max col)
            else if str_upper fn = "COUNT" then .ok (b.series_count col)
            else if str_upper fn = "FIRST_VALUE" then .ok (b.iloc0 col)
            else .error (.valueError ("unknown aggregation function " ++ str_upper fn))) := by
  refine ⟨?_, ?_, ?_, ?_⟩
  · intro node hn
    cases node <;> simp_all [is_general_set_function, executor_agg]
  · intro fn q v hv
    cases v <;> simp_all [is_column_reference, executor_agg]
  · intro fn qq parts c col hnorm hcol
    simp [executor_agg, hnorm, hcol]
  · intro fn parts c col hnorm hcol
    simp only [executor_agg, hnorm, hcol]
    split
    all_goals simp_all [executor_first]

/-- Witness for C5 at a concrete input: `sum(a)` over the sample table
aggregates the resolved column with the backend's series sum. -/
theorem claim5_agg_errors_witness :
    executor_agg triv_backend (.generalSetFunction "sum" none (.columnReference ["a"]))
        sample_table sample_table.colNames = .ok (triv_backend.series_sum [1, 2]) := by
  have h := (claim5_agg_errors triv_backend sample_table sample_table.colNames).2.2.2
    "sum" ["a"] ("t", "a") [1, 2] rfl rfl
  refine h.trans ?_
  rfl

theorem executor_selected_column_name_eq_spec (col : Column) (n : Nat) :
    executor_selected_column_name col n = spec_output_col_id col n := by
  unfold executor_selected_column_name get_selected_column_name spec_output_col_id
  cases col.alias_ with
  | some a => rfl
  | none =>
    cases hv : col.value with
    | columnReference parts => cases parts.getLast? <;> simp
    | generalSetFunction fn q v => rfl
    | binaryOp op l r => rfl
    | intLit v => rfl

theorem transform_entries_eq_spec (b : Backend) (table_id : String) (t : Table)
    (cols : List Column) : ∀ n,
    transform_entries b table_id t cols n = spec_transform_entries b table_id t cols n := by
  induction cols with
  | nil => intro n; rfl
  | cons col rest ih =>
    intro n
    simp only [transform_entries, spec_transform_entries,
      executor_selected_column_name_eq_spec, ih]

theorem executor_agg_ok_not_column_reference (b : Backend) (e : Expr) (t : Table)
    (columns : List ColName) (v : Int) (h : executor_agg b e t columns = .ok v) :
    is_column_reference e = false := by
  cases e <;> simp_all [executor_agg, is_column_reference]

theorem aggregation_entries_keys (b : Backend) (table_id : String) (t : Table)
    (columns : List ColName) (cols : List Column) : ∀ n entries n2,
    aggregation_entries b table_id t columns cols n = .ok (entries, n2) →
      entries.map Prod.fst = (spec_aggregation_keys table_id cols n).1
      ∧ n2 = (spec_aggregation_keys table_id cols n).2 := by
  induction cols with
  | nil =>
    intro n entries n2 h
    simp only [aggregation_entries] at h
    cases h
    simp [spec_aggregation_keys]
  | cons col rest ih =>
    intro n entries n2 h
    simp only [aggregation_entries] at h
    cases hagg : executor_agg b col.value t columns with
    | error e => rw [hagg] at h; cases h
    | ok v =>
      rw [hagg] at h
      have hid : (match col.alias_ with
          | some a => (a, n)
          | none => (default_id n, n + 1)) = spec_output_col_id col n := by
        unfold spec_output_col_id
        cases col.alias_ with
        | some a => rfl
        | none =>
          cases hv : col.value with
          | columnReference parts =>
            rw [hv] at hagg
            simp [executor_agg] at hagg
          | generalSetFunction fn q w => rfl
          | binaryOp op l r => rfl
          | intLit x => rfl
      rw [hid] at h
      cases hrest : aggregation_entries b table_id t columns rest (spec_output_col_id col n).2 with
      | error e => simp only [hrest] at h; cases h
      | ok p =>
        obtain ⟨es, n3⟩ := p
        simp only [hrest, Except.ok.injEq, Prod.mk.injEq] at h
        obtain ⟨he, hn2⟩ := h
        subst he
        subst hn2
        obtain ⟨hkeys, hn⟩ := ih (spec_output_col_id col n).2 es n3 hrest
        simp [spec_aggregation_keys, hkeys, hn]

/-- C3: both projection loops assign output column ids by the claim's
rule — alias first, terminal column-reference name second, fresh
generator id third.  A `Transform` node computes exactly the entries the
rule predicts; `_evaluate_aggregation_base`'s loop, whenever it
succeeds, yields exactly the keys and final counter the rule predicts
(its alias-or-fresh shortcut never diverges from the rule, because a bare
column-reference value always makes `_agg` raise before the entry is
ever produced). -/
theorem claim3_projected_column_ids (b : Backend) (strict : Bool) :
    (∀ td cols s n,
      evaluate b strict (.transform td cols) s n =
        match evaluate b strict td s n with
        | .error e => .error e
        | .ok (t, n1) =>
          let table_id := default_id n1
          let (entries, n2) := spec_transform_entries b table_id t cols (n1 + 1)
          .ok (b.combine_series entries, n2))
    ∧ (∀ table_id t columns cols n entries n2,
        aggregation_entries b table_id t columns cols n = .ok (entries, n2) →
          entries.map Prod.fst = (spec_aggregation_keys table_id cols n).1
          ∧ n2 = (spec_aggregation_keys table_id cols n).2) := by
  constructor
  · intro td cols s n
    rw [evaluate]
    cases h : evaluate b strict td s n with
    | error e => simp
    | ok p =>
      obtain ⟨t, n1⟩ := p
      simp [transform_entries_eq_spec]
  · intro table_id t columns cols n entries n2 h
    exact aggregation_entries_keys b table_id t columns cols n entries n2 h

/-- Witness for C3 at a concrete input: an aliased `sum(a)` keeps its
alias `s` and an unaliased `max(b)` draws the fresh id `$3`, exactly the
keys the claim's rule predicts. -/
theorem claim3_projected_column_ids_witness :
    ([((("$7", "s") : ColName), (3 : Int)), (("$7", "$3"), 20)].map Prod.fst
        = (spec_aggregation_keys "$7"
            [⟨.generalSetFunction "sum" none (.columnReference ["a"]), some "s"⟩,
             ⟨.generalSetFunction "max" none (.columnReference ["b"]), none⟩] 3).1)
    ∧ ((4 : Nat)
        = (spec_aggregation_keys "$7"
            [⟨.generalSetFunction "sum" none (.columnReference ["a"]), some "s"⟩,
             ⟨.generalSetFunction "max" none (.columnReference ["b"]), none⟩] 3).2) :=
  (claim3_projected_column_ids triv_backend false).2 "$7" sample_table
    sample_table.colNames
    [⟨.generalSetFunction "sum" none (.columnReference ["a"]), some "s"⟩,
     ⟨.generalSetFunction "max" none (.columnReference ["b"]), none⟩]
    3 [(("$7", "s"), 3), (("$7", "$3"), 20)] 4 rfl

/-- C1: `evaluate_join` delegates to the backend merge — with the
asserted join kind and the key lists extracted by
`as_pandas_join_condition` — exactly when `is_equality_join(on)` holds,
re-filtering the merge result through `Filter(Literal(result), on)`
(row-masking by the evaluated predicate plus an index reset) when strict
mode is enabled; when the predicate is not an equality join the
backend's non-equality-join path is taken instead. -/
theorem claim1_evaluate_join (b : Backend) (strict : Bool) (l r : Dag) (how : String)
    (on_ : Expr) (s : Scope) (n : Nat)
    (hhow : how = "inner" ∨ how = "outer" ∨ how = "left" ∨ how = "right") :
    evaluate b strict (.join l r how on_) s n =
      if is_equality_join on_ then
        match evaluate b strict l s n with
        | .error e => .error e
        | .ok (lt, n1) =>
          match evaluate b strict r s n1 with
          | .error e => .error e
          | .ok (rt, n2) =>
            match as_pandas_join_condition lt.colNames rt.colNames on_ with
            | .error e => .error e
            | .ok (left_on, right_on) =>
              let result := b.merge lt rt how left_on right_on
              if strict then
                .ok (b.reset_index (b.mask_rows result (b.evaluate_value on_ result)), n2)
              else .ok (result, n2)
      else b.evaluate_non_equality_join s (.join l r how on_) n := by
  rw [evaluate]
  cases heq : is_equality_join on_ with
  | false => simp [heq]
  | true =>
    simp only [heq, if_true]
    cases hl : evaluate b strict l s n with
    | error e => simp
    | ok p =>
      obtain ⟨lt, n1⟩ := p
      simp only []
      cases hr : evaluate b strict r s n1 with
      | error e => simp
      | ok p2 =>
        obtain ⟨rt, n2⟩ := p2
        simp only [hhow, or_true, true_or, if_true]
        cases hc : as_pandas_join_condition lt.colNames rt.colNames on_ with
        | error e => simp
        | ok pr =>
          obtain ⟨lon, ron⟩ := pr
          simp only []
          cases strict with
          | false => simp
          | true =>
            simp only [if_true]
            rw [evaluate]
            simp only []
            rw [evaluate]
            try simp

/-- Witness for C1 at a concrete input: a strict-mode inner equality
join of two literal tables under the trivial backend. -/
theorem claim1_evaluate_join_witness :
    evaluate triv_backend true
        (.join (.literal sample_table) (.literal sample_table2) "inner"
          (.binaryOp "=" (.columnReference ["a"]) (.columnReference ["k"])))
        [] 0
      = .ok (sample_table, 0) := by
  have h := claim1_evaluate_join triv_backend true (.literal sample_table)
    (.literal sample_table2) "inner"
    (.binaryOp "=" (.columnReference ["a"]) (.columnReference ["k"])) [] 0 (Or.inl rfl)
  rw [h]
  simp only [evaluate]
  rfl

theorem lookup_append_of_not_mem (l1 l2 : Scope) (k : String)
    (h : k ∉ l1.map Prod.fst) : (l1 ++ l2 : Scope).lookup k = l2.lookup k := by
  induction l1 with
  | nil => rfl
  | cons p rest ih =>
    obtain ⟨a, t⟩ := p
    simp only [List.map_cons, List.mem_cons, not_or] at h
    obtain ⟨hka, hrest⟩ := h
    have hbeq : (k == a) = false := by simpa using hka
    simp only [List.cons_append, List.lookup, hbeq]
    exact ih hrest

theorem scope_after_append (b : Backend) (strict : Bool) (pre : List (String × Dag)) :
    ∀ s n s1 n1, scope_after b strict s pre n = .ok (s1, n1) →
      ∃ newb : Scope, s1 = newb ++ s ∧ newb.map Prod.fst = (pre.map Prod.fst).reverse := by
  induction pre with
  | nil =>
    intro s n s1 n1 h
    simp only [scope_after, Except.ok.injEq, Prod.mk.injEq] at h
    obtain ⟨h1, h2⟩ := h
    exact ⟨[], by simp [h1.symm]⟩
  | cons p rest ih =>
    intro s n s1 n1 h
    obtain ⟨name, sub⟩ := p
    simp only [scope_after] at h
    cases hsub : evaluate b strict sub s n with
    | error e => rw [hsub] at h; cases h
    | ok q =>
      obtain ⟨t, n2⟩ := q
      rw [hsub] at h
      obtain ⟨newb, hb1, hb2⟩ := ih ((name, t) :: s) n2 s1 n1 h
      refine ⟨newb ++ [(name, t)], ?_, ?_⟩
      · rw [hb1]
        simp
      · simp [hb2]

/-- C9: `evaluate_define_tables` treats the caller's scope as immutable —
the loop works on a derived scope built by insertions over the incoming
scope value, so every binding the caller's scope held before is still
found unshadowed afterwards — and each CTE sub-plan is evaluated in the
derived scope that already holds the bindings of all earlier entries of
the same node, so a later CTE can reference an earlier one. -/
theorem claim9_define_tables_scope (b : Backend) (strict : Bool) :
    (∀ (pre : List (String × Dag)) (name : String) (sub : Dag)
        (post : List (String × Dag)) (body : Dag) (s : Scope) (n : Nat),
      evaluate b strict (.defineTables (pre ++ (name, sub) :: post) body) s n =
        match scope_after b strict s pre n with
        | .error e => .error e
        | .ok (s1, n1) =>
          match evaluate b strict sub s1 n1 with
          | .error e => .error e
          | .ok (t, n2) => evaluate b strict (.defineTables post body) ((name, t) :: s1) n2)
    ∧ (∀ (pre : List (String × Dag)) (s : Scope) (n : Nat) (s1 : Scope) (n1 : Nat),
        scope_after b strict s pre n = .ok (s1, n1) →
          ∃ newb : Scope, s1 = newb ++ s ∧ newb.map Prod.fst = (pre.map Prod.fst).reverse)
    ∧ (∀ (pre : List (String × Dag)) (s : Scope) (n : Nat) (s1 : Scope) (n1 : Nat),
        scope_after b strict s pre n = .ok (s1, n1) →
          ∀ k, k ∉ pre.map Prod.fst → s1.lookup k = s.lookup k) := by
  refine ⟨?_, scope_after_append b strict, ?_⟩
  · intro pre
    induction pre with
    | nil =>
      intro name sub post body s n
      rw [List.nil_append]
      rw [evaluate]
      rfl
    | cons p rest ih =>
      intro name sub post body s n
      obtain ⟨name0, sub0⟩ := p
      rw [List.cons_append]
      rw [evaluate]
      simp only [scope_after]
      cases hsub : evaluate b strict sub0 s n with
      | error e => simp
      | ok q =>
        obtain ⟨t, n2⟩ := q
        simp only []
        exact ih name sub post body ((name0, t) :: s) n2
  · intro pre s n s1 n1 h k hk
    obtain ⟨newb, hb1, hb2⟩ := scope_after_append b strict pre s n s1 n1 h
    rw [hb1]
    apply lookup_append_of_not_mem
    rw [hb2]
    simpa using hk

/-- Witness for C9 at a concrete input: after evaluating one CTE binding
`a`, the caller's binding `z` is still found in the derived scope. -/
theorem claim9_define_tables_scope_witness :
    ([("a", sample_table), ("z", sample_table2)] : Scope).lookup "z"
      = ([("z", sample_table2)] : Scope).lookup "z" :=
  (claim9_define_tables_scope triv_backend false).2.2
    [("a", .literal sample_table)] [("z", sample_table2)] 0
    [("a", sample_table), ("z", sample_table2)] 0
    (by rw [scope_after, evaluate]; rfl) "z" (by simp)
